import Mathlib

/-!
Verification of the identity-verification and credential-lifecycle subsystem
of `backend/routes/auth.js` (two variants of the router; the second, the
"bypass" variant, is embedded under the `Bypass` namespace).

The JavaScript handlers are embedded as pure state-transition functions:
the Mongo user collection becomes a list of `User` records, the in-memory
`pendingRegistrations` `Map` becomes an association list keyed by the email
string, `Date.now()` becomes an explicit `now : Nat` parameter, and
`Math.random()` draws become explicit `Fin 900000` parameters.  Each handler
returns the HTTP response (as an inductive result value) together with the
updated state.
-/

namespace LaundryAuth

/-- An entry of the `pendingRegistrations` map (auth.js lines 42-47). -/
structure Pending where
  email : String
  verificationCode : String
  verificationExpire : Nat
  createdAt : Nat
deriving Repr, DecidableEq

/-- A document of the external `User` collection; only the fields the
auth routes read or write are modelled.  `id` stands for Mongo `_id`. -/
structure User where
  id : Nat
  firstName : String
  lastName : String
  email : String
  password : String
  phoneNumber : String
  role : String
  emailVerified : Bool
  status : String
  resetPasswordToken : Option String
  resetPasswordExpire : Option Nat
deriving Repr, DecidableEq

/-- The mutable state the auth routes operate on: the durable user store,
the in-memory pending-registration map, and the id counter standing for
Mongo object-id allocation. -/
structure State where
  users : List User
  pendingRegistrations : List (String × Pending)
  nextId : Nat
deriving Repr, DecidableEq

/-- JS `String.prototype.trim`: drop leading and trailing whitespace.
(Embedded structurally over the character list so that concrete runs
reduce; extensionally this is `String.trim` on the inputs that occur.) -/
def jsTrim (s : String) : String :=
  ⟨((s.data.dropWhile Char.isWhitespace).reverse.dropWhile
      Char.isWhitespace).reverse⟩

/-- JS `String.prototype.toLowerCase`, embedded structurally. -/
def jsToLower (s : String) : String :=
  ⟨s.data.map Char.toLower⟩

/-- Normalization `email.trim().toLowerCase()` as used throughout auth.js. -/
def normalizeEmail (e : String) : String :=
  jsToLower (jsTrim e)

/-- The external bearer-credential issuer `generateToken(user._id)`;
modelled as an opaque issuance keyed by the account id. -/
def generateToken (id : Nat) : Nat := id

/-- Numeric part of `Math.floor(100000 + Math.random() * 900000)`
(auth.js line 10): with `Math.random()` in `[0,1)` the floor of the product
is a draw in `0..899999`. -/
def generateVerificationCodeNum (draw : Fin 900000) : Nat :=
  100000 + draw.val

/-- Helper `generateVerificationCode` (auth.js lines 9-11): the decimal string of
the drawn number. -/
def generateVerificationCode (draw : Fin 900000) : String :=
  Nat.repr (generateVerificationCodeNum draw)

/-- Lookup `pendingRegistrations.get(k)`: the value stored at key `k`. -/
def mapGet (m : List (String × Pending)) (k : String) : Option Pending :=
  match m with
  | [] => none
  | (k', v) :: rest => if k' = k then some v else mapGet rest k

/-- Update `pendingRegistrations.set(k, v)`: overwrite the entry at `k`, or append
a fresh one. -/
def mapSet (m : List (String × Pending)) (k : String) (v : Pending) :
    List (String × Pending) :=
  match m with
  | [] => [(k, v)]
  | (k', v') :: rest =>
    if k' = k then (k, v) :: rest else (k', v') :: mapSet rest k v

/-- Removal `pendingRegistrations.delete(k)`: remove the key `k` entirely (a JS
`Map` holds each key at most once, so on the association lists that embed
a `Map` this is exactly `Map.delete`). -/
def mapDelete (m : List (String × Pending)) (k : String) :
    List (String × Pending) :=
  m.filter (fun kv => kv.1 != k)

/-- Query `User.findOne({ email })`: first user whose email field equals the key. -/
def findByEmail (users : List User) (e : String) : Option User :=
  match users with
  | [] => none
  | u :: rest => if u.email = e then some u else findByEmail rest e

/-- The query predicate of
`User.findOne({ resetPasswordToken, resetPasswordExpire: { $gt: now } })`. -/
def resetMatch (t : String) (now : Nat) (u : User) : Bool :=
  u.resetPasswordToken == some t &&
    match u.resetPasswordExpire with
    | some e => decide (now < e)
    | none => false

/-- Query `User.findOne({ resetPasswordToken: t, resetPasswordExpire: { $gt: now } })`:
first user matching the whole query. -/
def findByResetToken (users : List User) (t : String) (now : Nat) : Option User :=
  match users with
  | [] => none
  | u :: rest =>
    if resetMatch t now u then some u else findByResetToken rest t now

/-- Write-back `user.save()`: write the (mutated) document back over the stored
document with the same `_id`. -/
def saveUser (users : List User) (u : User) : List User :=
  users.map (fun v => if v.id = u.id then u else v)

/-- Responses of `checkEmailAndSendVerification` (and of
`resendVerification`, which produces the same three shapes). -/
inductive CheckEmailResult where
  | emailRequired
  | alreadyRegistered
  | codeSent (verificationCode : String)
deriving Repr, DecidableEq

/-- Handler `checkEmailAndSendVerification` (auth.js lines 25-59): reject a blank
email, reject an already-registered email, otherwise store a fresh code
under the normalized email with a 10-minute expiry and return the code. -/
def checkEmailAndSendVerification (st : State) (now : Nat) (draw : Fin 900000)
    (email : String) : CheckEmailResult × State :=
  if jsTrim email = "" then (.emailRequired, st)
  else
    let normalized := normalizeEmail email
    match findByEmail st.users normalized with
    | some _ => (.alreadyRegistered, st)
    | none =>
      let verificationCode := generateVerificationCode draw
      let verificationExpire := now + 10 * 60 * 1000
      (.codeSent verificationCode,
        { st with pendingRegistrations := (mapSet st.pendingRegistrations
            normalized { email := normalized,
                         verificationCode := verificationCode,
                         verificationExpire := verificationExpire,
                         createdAt := now }) })

/-- The request body of the register endpoints; absent JSON fields are the
empty string (falsy, as in `role || 'customer'`). -/
structure RegisterInput where
  firstName : String
  lastName : String
  email : String
  password : String
  phoneNumber : String
  role : String
deriving Repr, DecidableEq

/-- Responses of the register endpoints. -/
inductive RegisterResult where
  | missingFields
  | alreadyRegistered
  | registered (email : String) (userId : Nat) (token : Nat) (role : String)
deriving Repr, DecidableEq

/-- Handler `register` (auth.js lines 64-104): create the user immediately,
auto-verified and active; the pending-registration map is not consulted. -/
def register (st : State) (input : RegisterInput) : RegisterResult × State :=
  if input.email = "" ∨ input.password = "" then (.missingFields, st)
  else
    let normalized := normalizeEmail input.email
    match findByEmail st.users normalized with
    | some _ => (.alreadyRegistered, st)
    | none =>
      let user : User :=
        { id := st.nextId, firstName := input.firstName,
          lastName := input.lastName, email := normalized,
          password := input.password, phoneNumber := input.phoneNumber,
          role := if input.role = "" then "customer" else input.role,
          emailVerified := true, status := "active",
          resetPasswordToken := none, resetPasswordExpire := none }
      (.registered normalized user.id (generateToken user.id) user.role,
        { st with users := st.users ++ [user], nextId := st.nextId + 1 })

/-- Responses of `verifyEmail`. -/
inductive VerifyEmailResult where
  | emailRequired
  | userNotFound
  | alreadyVerified (token : Nat)
  | invalidOrExpired
  | verified (userId : Nat) (firstName lastName email : String) (token : Nat)
deriving Repr, DecidableEq

/-- Handler `verifyEmail` (auth.js lines 109-147): looks the user and the pending
entry up by the raw, unnormalized email; a verified user short-circuits to
success; otherwise the code is checked against the pending entry, with one
combined invalid-or-expired rejection. -/
def verifyEmail (st : State) (now : Nat) (email code : String) :
    VerifyEmailResult × State :=
  if email = "" then (.emailRequired, st)
  else
    match findByEmail st.users email with
    | none => (.userNotFound, st)
    | some user =>
      if user.emailVerified then (.alreadyVerified (generateToken user.id), st)
      else
        match mapGet st.pendingRegistrations email with
        | none => (.invalidOrExpired, st)
        | some pending =>
          if pending.verificationCode ≠ code ∨ now > pending.verificationExpire
          then (.invalidOrExpired, st)
          else
            let user' := { user with emailVerified := true }
            (.verified user.id user.firstName user.lastName user.email
              (generateToken user.id),
              { st with users := (saveUser st.users user'),
                        pendingRegistrations :=
                          (mapDelete st.pendingRegistrations email) })

/-- Handler `resendVerification` (auth.js lines 152-182): same store-a-fresh-code
body as `checkEmailAndSendVerification`, behind a plain `!email` guard. -/
def resendVerification (st : State) (now : Nat) (draw : Fin 900000)
    (email : String) : CheckEmailResult × State :=
  if email = "" then (.emailRequired, st)
  else
    let normalized := normalizeEmail email
    match findByEmail st.users normalized with
    | some _ => (.alreadyRegistered, st)
    | none =>
      let verificationCode := generateVerificationCode draw
      let verificationExpire := now + 10 * 60 * 1000
      (.codeSent verificationCode,
        { st with pendingRegistrations := (mapSet st.pendingRegistrations
            normalized { email := normalized,
                         verificationCode := verificationCode,
                         verificationExpire := verificationExpire,
                         createdAt := now }) })

/-- Responses of `verifyCode`. -/
inductive VerifyCodeResult where
  | missingFields
  | noPending
  | codeMismatch
  | codeExpired
  | codeOk (email : String)
deriving Repr, DecidableEq

/-- Handler `verifyCode` (auth.js lines 187-214): looks the pending entry up by the
raw email, checks the code, then expiry (evicting an expired entry); a
successful check has no side effect at all. -/
def verifyCode (st : State) (now : Nat) (email code : String) :
    VerifyCodeResult × State :=
  if email = "" ∨ code = "" then (.missingFields, st)
  else
    match mapGet st.pendingRegistrations email with
    | none => (.noPending, st)
    | some pendingData =>
      if pendingData.verificationCode ≠ code then (.codeMismatch, st)
      else if now > pendingData.verificationExpire then
        (.codeExpired,
          { st with pendingRegistrations :=
              (mapDelete st.pendingRegistrations email) })
      else (.codeOk email, st)

/-- Responses of `resetPassword`. -/
inductive ResetPasswordResult where
  | missingFields
  | invalidOrExpired
  | success
deriving Repr, DecidableEq

/-- Handler `resetPassword` (auth.js lines 386-408): find the account holding
exactly this token with an unexpired `resetPasswordExpire`, set the new
password, clear both reset fields, save. -/
def resetPassword (st : State) (now : Nat) (resetToken newPassword : String) :
    ResetPasswordResult × State :=
  if resetToken = "" ∨ newPassword = "" then (.missingFields, st)
  else
    match findByResetToken st.users resetToken now with
    | none => (.invalidOrExpired, st)
    | some user =>
      let user' := { user with
                     password := newPassword,
                     resetPasswordToken := none,
                     resetPasswordExpire := none }
      (.success, { st with users := (saveUser st.users user') })

namespace Bypass

/-- Bypass-variant `/register` (auth.js lines 447-480): identical account
creation, auto-verified and active; this variant has no pending map at all. -/
def register (st : State) (input : RegisterInput) : RegisterResult × State :=
  if input.email = "" ∨ input.password = "" then (.missingFields, st)
  else
    let normalized := normalizeEmail input.email
    match findByEmail st.users normalized with
    | some _ => (.alreadyRegistered, st)
    | none =>
      let user : User :=
        { id := st.nextId, firstName := input.firstName,
          lastName := input.lastName, email := normalized,
          password := input.password, phoneNumber := input.phoneNumber,
          role := if input.role = "" then "customer" else input.role,
          emailVerified := true, status := "active",
          resetPasswordToken := none, resetPasswordExpire := none }
      (.registered normalized user.id (generateToken user.id) user.role,
        { st with users := st.users ++ [user], nextId := st.nextId + 1 })

/-- The request body of the bypass `/verify-code` endpoint: the handler
destructures only `email` from it; `code` is carried but never read. -/
structure VerifyCodeRequest where
  email : String
  code : String
deriving Repr, DecidableEq

/-- Responses of the bypass `/verify-code` endpoint. -/
inductive VerifyCodeResult where
  | emailRequired
  | userNotFound
  | verified (token : Nat)
deriving Repr, DecidableEq

/-- Bypass-variant `/verify-code` (auth.js lines 645-665): marks the user
verified and returns a token; the supplied code is never consulted. -/
def verifyCode (st : State) (req : VerifyCodeRequest) :
    VerifyCodeResult × State :=
  if req.email = "" then (.emailRequired, st)
  else
    let normalized := normalizeEmail req.email
    match findByEmail st.users normalized with
    | none => (.userNotFound, st)
    | some user =>
      let user' := { user with emailVerified := true }
      (.verified (generateToken user.id),
        { st with users := saveUser st.users user' })

end Bypass

/-! ### Concrete fixtures used by witnesses and counterexamples -/

/-- A user record used in concrete runs; unverified. -/
def alice : User :=
  { id := 1, firstName := "Alice", lastName := "Smith", email := "a@b.com",
    password := "pw", phoneNumber := "111", role := "customer",
    emailVerified := false, status := "active",
    resetPasswordToken := none, resetPasswordExpire := none }

/-- The user `alice`, already verified. -/
def aliceVerified : User :=
  { alice with emailVerified := true }

/-- A verified user holding an outstanding reset token. -/
def bob : User :=
  { id := 2, firstName := "Bob", lastName := "Jones", email := "bob@c.com",
    password := "pw2", phoneNumber := "222", role := "customer",
    emailVerified := true, status := "active",
    resetPasswordToken := some "resettok", resetPasswordExpire := some 600000 }

/-- A live pending entry for `a@b.com` (code `123456`, expiry tick 600000). -/
def alicePending : Pending :=
  { email := "a@b.com", verificationCode := "123456",
    verificationExpire := 600000, createdAt := 0 }

/-- An already-expired pending entry for `a@b.com` (expiry tick 1000). -/
def expiredPending : Pending :=
  { email := "a@b.com", verificationCode := "123456",
    verificationExpire := 1000, createdAt := 0 }

/-- A pending entry keyed under `user@x.com`. -/
def pendX : Pending :=
  { email := "user@x.com", verificationCode := "123456",
    verificationExpire := 600000, createdAt := 0 }

/-- The draw whose verification code is the string `123456`. -/
def draw123456 : Fin 900000 := ⟨23456, by decide⟩

/-- The draw whose verification code is the string `100000`. -/
def draw100000 : Fin 900000 := ⟨0, by decide⟩

/-- The draw whose verification code is the string `100001`. -/
def draw100001 : Fin 900000 := ⟨1, by decide⟩

/-- The empty store. -/
def stEmpty : State :=
  { users := [], pendingRegistrations := [], nextId := 1 }

/-- A store holding only the pending entry for `user@x.com`. -/
def stPendX : State :=
  { users := [], pendingRegistrations := [("user@x.com", pendX)], nextId := 1 }

/-- A store with the unverified `alice` and a live pending entry for her. -/
def stAlicePending : State :=
  { users := [alice], pendingRegistrations := [("a@b.com", alicePending)],
    nextId := 2 }

/-- A store with the unverified `alice` and an expired pending entry for her. -/
def stAliceExpired : State :=
  { users := [alice], pendingRegistrations := [("a@b.com", expiredPending)],
    nextId := 2 }

/-- A store with the verified `alice` and a live pending entry for her. -/
def stAliceVerified : State :=
  { users := [aliceVerified],
    pendingRegistrations := [("a@b.com", alicePending)], nextId := 2 }

/-- A store with only a pending entry for `a@b.com` and no account. -/
def stOnlyPending : State :=
  { users := [], pendingRegistrations := [("a@b.com", alicePending)],
    nextId := 1 }

/-- A store with only `bob`, who holds the reset token `resettok`. -/
def stBob : State :=
  { users := [bob], pendingRegistrations := [], nextId := 3 }

/-- A register request for `a@b.com` with no role field. -/
def regInput : RegisterInput :=
  { firstName := "Alice", lastName := "Smith", email := "a@b.com",
    password := "pw", phoneNumber := "111", role := "" }

/-! ### Basic lemmas about the embedded `Map` and store operations -/

theorem mapGet_mapSet_self (m : List (String × Pending)) (k : String)
    (v : Pending) : mapGet (mapSet m k v) k = some v := by
  induction m with
  | nil => simp [mapSet, mapGet]
  | cons hd tl ih =>
    obtain ⟨k', v'⟩ := hd
    by_cases h : k' = k
    · simp [mapSet, h, mapGet]
    · simp [mapSet, h, mapGet, ih]

theorem mapGet_mapDelete_self (m : List (String × Pending)) (k : String) :
    mapGet (mapDelete m k) k = none := by
  induction m with
  | nil => rfl
  | cons hd tl ih =>
    obtain ⟨k', v'⟩ := hd
    by_cases h : k' = k
    · simpa [mapDelete, List.filter_cons, h] using ih
    · simpa [mapDelete, List.filter_cons, h, mapGet] using ih

theorem mapSet_keys_mem (m : List (String × Pending)) (k : String)
    (v : Pending) (x : String) (hx : x ∈ (mapSet m k v).map Prod.fst) :
    x = k ∨ x ∈ m.map Prod.fst := by
  induction m with
  | nil => simpa [mapSet] using hx
  | cons hd tl ih =>
    obtain ⟨k', v'⟩ := hd
    by_cases h : k' = k
    · simp [mapSet, h] at hx
      rcases hx with hx | hx
      · exact Or.inl hx
      · exact Or.inr (by simp [hx])
    · simp [mapSet, h] at hx
      rcases hx with hx | hx
      · exact Or.inr (by simp [hx])
      · rcases ih (by simpa using hx) with h1 | h2
        · exact Or.inl h1
        · exact Or.inr (by simp [h2])

theorem mapSet_keys_nodup (m : List (String × Pending)) (k : String)
    (v : Pending) (h : (m.map Prod.fst).Nodup) :
    ((mapSet m k v).map Prod.fst).Nodup := by
  induction m with
  | nil => simp [mapSet]
  | cons hd tl ih =>
    obtain ⟨k', v'⟩ := hd
    simp only [List.map_cons, List.nodup_cons] at h
    by_cases hk : k' = k
    · subst hk
      simpa [mapSet, List.nodup_cons] using h
    · simp only [mapSet, if_neg hk, List.map_cons, List.nodup_cons]
      refine ⟨fun hmem => ?_, ih h.2⟩
      rcases mapSet_keys_mem tl k v k' hmem with h1 | h2
      · exact hk h1
      · exact h.1 h2

theorem resetMatch_eq_true (t : String) (now : Nat) (u : User) :
    resetMatch t now u = true ↔
      u.resetPasswordToken = some t ∧
        ∃ e, u.resetPasswordExpire = some e ∧ now < e := by
  unfold resetMatch
  cases he : u.resetPasswordExpire <;> simp [he]

theorem findByEmail_mem (users : List User) (e : String) (u : User)
    (h : findByEmail users e = some u) : u ∈ users ∧ u.email = e := by
  induction users with
  | nil => simp [findByEmail] at h
  | cons a tl ih =>
    unfold findByEmail at h
    by_cases pa : a.email = e
    · rw [if_pos pa] at h
      obtain rfl : a = u := by injection h
      exact ⟨List.mem_cons_self _ _, pa⟩
    · rw [if_neg pa] at h
      obtain ⟨hmem, hem⟩ := ih h
      exact ⟨List.mem_cons_of_mem _ hmem, hem⟩

theorem findByEmail_saveUser_verified (users : List User) (e : String)
    (u : User) (h : findByEmail users e = some u) :
    findByEmail (saveUser users { u with emailVerified := true }) e =
      some { u with emailVerified := true } := by
  induction users with
  | nil => simp [findByEmail] at h
  | cons a tl ih =>
    unfold findByEmail at h
    unfold saveUser at ih ⊢
    simp only [List.map_cons]
    unfold findByEmail
    by_cases pa : a.email = e
    · rw [if_pos pa] at h
      obtain rfl : a = u := by injection h
      simp [pa]
    · rw [if_neg pa] at h
      have pu : u.email = e := (findByEmail_mem tl e u h).2
      by_cases hid : a.id = u.id
      · simp [hid, pu]
      · simp only [show ({ u with emailVerified := true } : User).id = u.id
          from rfl, if_neg hid]
        rw [if_neg pa]
        exact ih h

theorem findByResetToken_mem (users : List User) (t : String) (now : Nat)
    (u : User) (h : findByResetToken users t now = some u) :
    u ∈ users ∧ resetMatch t now u = true := by
  induction users with
  | nil => simp [findByResetToken] at h
  | cons a tl ih =>
    unfold findByResetToken at h
    by_cases pa : resetMatch t now a = true
    · rw [if_pos pa] at h
      obtain rfl : a = u := by injection h
      exact ⟨List.mem_cons_self _ _, pa⟩
    · rw [if_neg pa] at h
      obtain ⟨hmem, hm⟩ := ih h
      exact ⟨List.mem_cons_of_mem _ hmem, hm⟩

theorem findByResetToken_eq_none (users : List User) (t : String) (now : Nat)
    (h : ∀ u ∈ users, resetMatch t now u = false) :
    findByResetToken users t now = none := by
  induction users with
  | nil => rfl
  | cons a tl ih =>
    unfold findByResetToken
    rw [if_neg (by simp [h a (List.mem_cons_self _ _)])]
    exact ih fun u hu => h u (List.mem_cons_of_mem _ hu)

theorem findByResetToken_isSome (users : List User) (t : String) (now : Nat)
    (u : User) (hmem : u ∈ users) (hm : resetMatch t now u = true) :
    ∃ w, findByResetToken users t now = some w := by
  induction users with
  | nil => simp at hmem
  | cons a tl ih =>
    unfold findByResetToken
    by_cases pa : resetMatch t now a = true
    · exact ⟨a, if_pos pa⟩
    · rw [if_neg pa]
      rcases List.mem_cons.mp hmem with rfl | hmem'
      · exact absurd hm pa
      · exact ih hmem'

/-! ### The claims -/

/-- Claim C8, as stated, is false: `generateVerificationCode` never draws a
value below 100000, so no draw yields a code with leading zeros.  The
source computes `Math.floor(100000 + Math.random() * 900000)`, whose
minimum is 100000. -/
theorem C8_counterexample :
    Set.range generateVerificationCodeNum ∩ Set.Iio 100000 = ∅ := by
  ext n
  simp only [Set.mem_inter_iff, Set.mem_range, Set.mem_Iio,
    Set.mem_empty_iff_false, iff_false, not_and]
  rintro ⟨d, rfl⟩
  simp only [generateVerificationCodeNum]
  omega

/-- Claim C8 (amended): `generateVerificationCode` returns the decimal
string of a number drawn from the range 100000–999999 — always six digits,
never with leading zeros, and never covering 000000–099999. -/
theorem C8_amended :
    ∀ d : Fin 900000,
      100000 ≤ generateVerificationCodeNum d ∧
        generateVerificationCodeNum d ≤ 999999 ∧
        generateVerificationCode d = Nat.repr (generateVerificationCodeNum d) := by
  intro d
  have hd := d.isLt
  refine ⟨?_, ?_, rfl⟩ <;> simp only [generateVerificationCodeNum] <;> omega

/-- Claim C10: when the account is already verified, `verifyEmail` returns
success with a bearer token, never consults the supplied code (the code is
universally quantified and absent from the outcome), and leaves the whole
state — account store and pending table — unchanged. -/
theorem C10_already_verified_frame (st : State) (now : Nat) (e c : String)
    (u : User) (he : e ≠ "") (hfind : findByEmail st.users e = some u)
    (hver : u.emailVerified = true) :
    verifyEmail st now e c = (.alreadyVerified (generateToken u.id), st) := by
  simp [verifyEmail, he, hfind, hver]

/-- Witness for C10 at a concrete store: the verified `alice` with an
arbitrary wrong code. -/
theorem C10_witness :
    ("a@b.com" : String) ≠ "" ∧
      findByEmail stAliceVerified.users "a@b.com" = some aliceVerified ∧
      aliceVerified.emailVerified = true ∧
      verifyEmail stAliceVerified 0 "a@b.com" "999999" =
        (.alreadyVerified (generateToken aliceVerified.id), stAliceVerified) :=
  ⟨by decide, by decide, by decide,
    C10_already_verified_frame stAliceVerified 0 "a@b.com" "999999"
      aliceVerified (by decide) (by decide) (by decide)⟩

/-- Claim C9: the bypass `verify-code` endpoint ignores the code field —
two requests differing only in `code` produce identical outcomes (same
response, same final state) — and for an existing account it marks the
account verified and returns a bearer token. -/
theorem C9_code_ignored (st : State) (req1 req2 : Bypass.VerifyCodeRequest)
    (hsame : req1.email = req2.email) (he : req1.email ≠ "") :
    Bypass.verifyCode st req1 = Bypass.verifyCode st req2 ∧
      ∀ u, findByEmail st.users (normalizeEmail req1.email) = some u →
        Bypass.verifyCode st req1 =
          (.verified (generateToken u.id),
            { st with users := (saveUser st.users { u with emailVerified := true }) }) := by
  constructor
  · unfold Bypass.verifyCode
    rw [hsame]
  · intro u hu
    simp [Bypass.verifyCode, he, hu]

/-- Witness for C9: two requests for the verified `alice` differing only in
the code field. -/
theorem C9_witness :
    Bypass.verifyCode stAliceVerified ⟨"a@b.com", "111111"⟩ =
        Bypass.verifyCode stAliceVerified ⟨"a@b.com", "222222"⟩ ∧
      Bypass.verifyCode stAliceVerified ⟨"a@b.com", "111111"⟩ =
        (.verified (generateToken aliceVerified.id),
          { stAliceVerified with users :=
              (saveUser stAliceVerified.users
                { aliceVerified with emailVerified := true }) }) := by
  have h := C9_code_ignored stAliceVerified ⟨"a@b.com", "111111"⟩
    ⟨"a@b.com", "222222"⟩ rfl (by decide)
  exact ⟨h.1, h.2 aliceVerified (by decide)⟩

/-- Claim C1, as stated, is false: a successful `verifyCode` does not
remove the pending entry — the state is unchanged — and a second confirm
with the same email and code succeeds again instead of failing with
`NoPendingRequest`. -/
theorem C1_counterexample :
    (verifyCode stPendX 0 "user@x.com" "123456").1 = .codeOk "user@x.com" ∧
      mapGet (verifyCode stPendX 0 "user@x.com" "123456").2.pendingRegistrations
          "user@x.com" = some pendX ∧
      (verifyCode (verifyCode stPendX 0 "user@x.com" "123456").2
          0 "user@x.com" "123456").1 = .codeOk "user@x.com" :=
  ⟨by decide, by decide, by decide⟩

/-- Claim C1 (amended): a successful `verifyCode` has no side effect — the
pending entry survives and an identical second `verifyCode` succeeds again.
The `verifyEmail` path does remove the pending entry on success, but a
second `verifyEmail` with the same email and code returns already-verified
success (with a fresh token), not `NoPendingRequest`. -/
theorem C1_amended (st : State) (now now2 : Nat) (e c : String) (u : User)
    (p : Pending) (he : e ≠ "") (hc : c ≠ "")
    (hfind : findByEmail st.users e = some u) (hver : u.emailVerified = false)
    (hp : mapGet st.pendingRegistrations e = some p)
    (hcode : p.verificationCode = c) (hexp : ¬ now > p.verificationExpire) :
    (verifyCode st now e c).1 = .codeOk e ∧
      (verifyCode st now e c).2 = st ∧
      (verifyEmail st now e c).1 =
        .verified u.id u.firstName u.lastName u.email (generateToken u.id) ∧
      mapGet (verifyEmail st now e c).2.pendingRegistrations e = none ∧
      (verifyEmail (verifyEmail st now e c).2 now2 e c).1 =
        .alreadyVerified (generateToken u.id) := by
  have hstep : verifyEmail st now e c =
      (.verified u.id u.firstName u.lastName u.email (generateToken u.id),
        { st with users := (saveUser st.users { u with emailVerified := true }),
                  pendingRegistrations :=
                    (mapDelete st.pendingRegistrations e) }) := by
    simp [verifyEmail, he, hfind, hver, hp, hcode, hexp]
  have hfind2 : findByEmail
      (saveUser st.users { u with emailVerified := true }) e =
      some { u with emailVerified := true } :=
    findByEmail_saveUser_verified st.users e u hfind
  refine ⟨?_, ?_, ?_, ?_, ?_⟩
  · simp [verifyCode, he, hc, hp, hcode, hexp]
  · simp [verifyCode, he, hc, hp, hcode, hexp]
  · rw [hstep]
  · rw [hstep]
    exact mapGet_mapDelete_self _ _
  · rw [hstep]
    simp [verifyEmail, he, hfind2]

/-- Witness for C1 (amended) at a concrete store: the unverified `alice`
with a live matching pending entry. -/
theorem C1_witness :
    mapGet stAlicePending.pendingRegistrations "a@b.com" = some alicePending ∧
      (verifyCode stAlicePending 0 "a@b.com" "123456").1 = .codeOk "a@b.com" ∧
      (verifyCode stAlicePending 0 "a@b.com" "123456").2 = stAlicePending ∧
      mapGet (verifyEmail stAlicePending 0 "a@b.com"
          "123456").2.pendingRegistrations "a@b.com" = none ∧
      (verifyEmail (verifyEmail stAlicePending 0 "a@b.com" "123456").2
          7 "a@b.com" "123456").1 = .alreadyVerified (generateToken alice.id) := by
  have h := C1_amended stAlicePending 0 7 "a@b.com" "123456" alice alicePending
    (by decide) (by decide) (by decide) (by decide) (by decide) (by decide)
    (by decide)
  exact ⟨by decide, h.1, h.2.1, h.2.2.2.1, h.2.2.2.2⟩

/-- Claim C3, as stated, is false for the `verifyEmail` confirm path: with
an expired pending entry and the stored (matching) code, `verifyEmail`
answers the combined invalid-or-expired error and leaves the state — in
particular the pending entry — fully intact instead of evicting it. -/
theorem C3_counterexample :
    (verifyEmail stAliceExpired 2000 "a@b.com" "123456").1 =
        .invalidOrExpired ∧
      (verifyEmail stAliceExpired 2000 "a@b.com" "123456").2 = stAliceExpired ∧
      mapGet stAliceExpired.pendingRegistrations "a@b.com" =
        some expiredPending :=
  ⟨by decide, by decide, by decide⟩

/-- Claim C3 (amended): confirming an expired matching code via
`verifyCode` fails with `CodeExpired` and evicts the entry as a side
effect, before any reaper sweep.  The `verifyEmail` path instead fails with
its combined invalid-or-expired error and does not evict. -/
theorem C3_amended (st : State) (now : Nat) (e c : String) (p : Pending)
    (u : User) (he : e ≠ "") (hc : c ≠ "")
    (hp : mapGet st.pendingRegistrations e = some p)
    (hcode : p.verificationCode = c) (hexp : now > p.verificationExpire)
    (hfind : findByEmail st.users e = some u)
    (hver : u.emailVerified = false) :
    (verifyCode st now e c).1 = .codeExpired ∧
      mapGet (verifyCode st now e c).2.pendingRegistrations e = none ∧
      verifyEmail st now e c = (.invalidOrExpired, st) := by
  refine ⟨?_, ?_, ?_⟩
  · simp [verifyCode, he, hc, hp, hcode, hexp]
  · have : (verifyCode st now e c).2 =
        { st with pendingRegistrations :=
            (mapDelete st.pendingRegistrations e) } := by
      simp [verifyCode, he, hc, hp, hcode, hexp]
    rw [this]
    exact mapGet_mapDelete_self _ _
  · simp [verifyEmail, he, hfind, hver, hp, hcode, hexp]

/-- Witness for C3 (amended) at a concrete store: the unverified `alice`
with an expired matching pending entry, confirmed at tick 2000. -/
theorem C3_witness :
    mapGet stAliceExpired.pendingRegistrations "a@b.com" =
        some expiredPending ∧
      (2000 : Nat) > expiredPending.verificationExpire ∧
      (verifyCode stAliceExpired 2000 "a@b.com" "123456").1 = .codeExpired ∧
      mapGet (verifyCode stAliceExpired 2000 "a@b.com"
        "123456").2.pendingRegistrations "a@b.com" = none := by
  have h := C3_amended stAliceExpired 2000 "a@b.com" "123456" expiredPending
    alice (by decide) (by decide) (by decide) (by decide) (by decide)
    (by decide) (by decide)
  exact ⟨by decide, by decide, h.1, h.2.1⟩

/-- Claim C5, as stated, is false: a successful `register` creates the
account (auto-verified, active) but does not consume the pending entry for
that email — the entry is still retrievable afterwards. -/
theorem C5_counterexample :
    (register stOnlyPending regInput).1 =
        .registered "a@b.com" 1 (generateToken 1) "customer" ∧
      mapGet (register stOnlyPending regInput).2.pendingRegistrations
        "a@b.com" = some alicePending :=
  ⟨by decide, by decide⟩

/-- Claim C5 (amended): a successful `register` (in either variant) creates
the account with `emailVerified = true` and `status = active`, but leaves
the pending-registration table exactly as it was: nothing is consumed. -/
theorem C5_amended (st : State) (input : RegisterInput)
    (he : input.email ≠ "") (hpw : input.password ≠ "")
    (hno : findByEmail st.users (normalizeEmail input.email) = none) :
    (∃ u, (register st input).2.users = st.users ++ [u] ∧
        u.email = normalizeEmail input.email ∧ u.emailVerified = true ∧
        u.status = "active") ∧
      (register st input).2.pendingRegistrations =
        st.pendingRegistrations ∧
      (Bypass.register st input).2.pendingRegistrations =
        st.pendingRegistrations := by
  refine ⟨⟨{ id := st.nextId,
             firstName := input.firstName,
             lastName := input.lastName,
             email := normalizeEmail input.email,
             password := input.password,
             phoneNumber := input.phoneNumber,
             role := if input.role = "" then "customer" else input.role,
             emailVerified := true,
             status := "active",
             resetPasswordToken := none,
             resetPasswordExpire := none },
      ?_, rfl, rfl, rfl⟩, ?_, ?_⟩
  · simp [register, he, hpw, hno]
  · simp [register, he, hpw, hno]
  · simp [Bypass.register, he, hpw, hno]

/-- Witness for C5 (amended): registering `a@b.com` over a store that holds
a pending entry for that very email. -/
theorem C5_witness :
    mapGet stOnlyPending.pendingRegistrations "a@b.com" = some alicePending ∧
      (register stOnlyPending regInput).2.pendingRegistrations =
        stOnlyPending.pendingRegistrations ∧
      (Bypass.register stOnlyPending regInput).2.pendingRegistrations =
        stOnlyPending.pendingRegistrations := by
  have h := C5_amended stOnlyPending regInput (by decide) (by decide)
    (by decide)
  exact ⟨by decide, h.2.1, h.2.2⟩

/-- Claim C7, as stated, is false: the request-code call stores the entry
under the normalized email, but `verifyCode` looks it up under the raw
presented string — so confirming with the very casing the code was
requested under fails with `NoPendingRequest`. -/
theorem C7_counterexample :
    (checkEmailAndSendVerification stEmpty 0 draw123456 "User@X.com").1 =
        .codeSent "123456" ∧
      (verifyCode (checkEmailAndSendVerification stEmpty 0 draw123456
          "User@X.com").2 5 "User@X.com" "123456").1 = .noPending :=
  ⟨by decide, by decide⟩

/-- Claim C7 (amended): the store is keyed by the normalized (trimmed,
lowercased) email, but the confirm lookup is by the raw string: starting
from an empty table, after a request-code call exactly the key
`normalizeEmail e` holds the entry, a confirm presenting precisely that
normalized string succeeds, and a confirm presenting any other string —
including the original casing — fails with `NoPendingRequest`. -/
theorem C7_amended (st : State) (now : Nat) (d : Fin 900000) (e : String)
    (htrim : jsTrim e ≠ "") (hn : normalizeEmail e ≠ "")
    (hcode : generateVerificationCode d ≠ "")
    (hno : findByEmail st.users (normalizeEmail e) = none)
    (hempty : st.pendingRegistrations = []) :
    (∀ k, mapGet
        (checkEmailAndSendVerification st now d e).2.pendingRegistrations k =
        if k = normalizeEmail e
        then some { email := normalizeEmail e,
                    verificationCode := generateVerificationCode d,
                    verificationExpire := now + 10 * 60 * 1000,
                    createdAt := now }
        else none) ∧
      (verifyCode (checkEmailAndSendVerification st now d e).2 now
          (normalizeEmail e) (generateVerificationCode d)).1 =
        .codeOk (normalizeEmail e) ∧
      ∀ k, k ≠ normalizeEmail e → k ≠ "" →
        (verifyCode (checkEmailAndSendVerification st now d e).2 now k
            (generateVerificationCode d)).1 = .noPending := by
  have hstep : (checkEmailAndSendVerification st now d e).2 =
      { st with pendingRegistrations :=
          [(normalizeEmail e,
            { email := normalizeEmail e,
              verificationCode := generateVerificationCode d,
              verificationExpire := now + 10 * 60 * 1000,
              createdAt := now })] } := by
    simp [checkEmailAndSendVerification, htrim, hno, hempty, mapSet]
  have hnotlt : ¬ now > now + 10 * 60 * 1000 := by omega
  refine ⟨?_, ?_, ?_⟩
  · intro k
    rw [hstep]
    by_cases hk : k = normalizeEmail e
    · simp [mapGet, hk]
    · simp [mapGet, hk, Ne.symm hk]
  · rw [hstep]
    simp [verifyCode, hn, hcode, mapGet, hnotlt]
  · intro k hk1 hk2
    rw [hstep]
    simp [verifyCode, hk2, hcode, mapGet, Ne.symm hk1]

/-- Witness for C7 (amended): requesting a code for `" User@X.com "` keys
the entry under `user@x.com`; confirming with the normalized string
succeeds while confirming with the raw casing `User@X.com` fails. -/
theorem C7_witness :
    jsTrim " User@X.com " ≠ "" ∧
      normalizeEmail " User@X.com " = "user@x.com" ∧
      (verifyCode (checkEmailAndSendVerification stEmpty 0 draw123456
            " User@X.com ").2 0 (normalizeEmail " User@X.com ")
          (generateVerificationCode draw123456)).1 =
        .codeOk (normalizeEmail " User@X.com ") ∧
      (verifyCode (checkEmailAndSendVerification stEmpty 0 draw123456
            " User@X.com ").2 0 "User@X.com"
          (generateVerificationCode draw123456)).1 = .noPending := by
  have h := C7_amended stEmpty 0 draw123456 " User@X.com " (by decide)
    (by decide) (by decide) (by decide) rfl
  exact ⟨by decide, by decide, h.2.1, h.2.2 "User@X.com" (by decide) (by decide)⟩

/-- Claim C6: when an account already exists for the (normalized) email,
`register` and `checkEmailAndSendVerification` both fail with the
already-registered error and leave the state untouched — whatever the
pending table holds. -/
theorem C6_duplicate_rejected (st : State) (now : Nat) (d : Fin 900000)
    (input : RegisterInput) (u : User)
    (htrim : jsTrim input.email ≠ "") (hpw : input.password ≠ "")
    (hfind : findByEmail st.users (normalizeEmail input.email) = some u) :
    register st input = (.alreadyRegistered, st) ∧
      checkEmailAndSendVerification st now d input.email =
        (.alreadyRegistered, st) := by
  have he : input.email ≠ "" := fun h => htrim (by rw [h]; decide)
  refine ⟨?_, ?_⟩
  · simp [register, he, hpw, hfind]
  · simp [checkEmailAndSendVerification, htrim, hfind]

/-- Witness for C6: `a@b.com` is already registered (and a pending entry
for it exists as well); both calls are rejected. -/
theorem C6_witness :
    findByEmail stAliceVerified.users (normalizeEmail regInput.email) =
        some aliceVerified ∧
      mapGet stAliceVerified.pendingRegistrations "a@b.com" =
        some alicePending ∧
      register stAliceVerified regInput =
        (.alreadyRegistered, stAliceVerified) ∧
      checkEmailAndSendVerification stAliceVerified 0 draw123456
          regInput.email = (.alreadyRegistered, stAliceVerified) := by
  have h := C6_duplicate_rejected stAliceVerified 0 draw123456 regInput
    aliceVerified (by decide) (by decide) (by decide)
  exact ⟨by decide, by decide, h.1, h.2⟩

/-- Claim C2: issuing a code and then re-issuing one for the same email
overwrites the first pending entry: the table keys stay duplicate-free, the
entry retrieved for the normalized email is the one of the second issuance,
and a confirm presenting the first (distinct) code fails with
`CodeMismatch`. -/
theorem C2_reissue_supersedes (st : State) (now1 now2 now3 : Nat)
    (d1 d2 : Fin 900000) (e : String)
    (htrim : jsTrim e ≠ "") (hn : normalizeEmail e ≠ "")
    (hno : findByEmail st.users (normalizeEmail e) = none)
    (hwf : (st.pendingRegistrations.map Prod.fst).Nodup)
    (hne : generateVerificationCode d1 ≠ generateVerificationCode d2)
    (h0 : generateVerificationCode d1 ≠ "") :
    mapGet (resendVerification (checkEmailAndSendVerification st now1 d1 e).2
        now2 d2 e).2.pendingRegistrations (normalizeEmail e) =
      some { email := normalizeEmail e,
             verificationCode := generateVerificationCode d2,
             verificationExpire := now2 + 10 * 60 * 1000,
             createdAt := now2 } ∧
    (((resendVerification (checkEmailAndSendVerification st now1 d1 e).2
        now2 d2 e).2.pendingRegistrations).map Prod.fst).Nodup ∧
    (verifyCode (resendVerification (checkEmailAndSendVerification
        st now1 d1 e).2 now2 d2 e).2 now3 (normalizeEmail e)
        (generateVerificationCode d1)).1 = .codeMismatch := by
  have he : e ≠ "" := fun h => htrim (by rw [h]; decide)
  have hstep1 : (checkEmailAndSendVerification st now1 d1 e).2 =
      { st with pendingRegistrations :=
          (mapSet st.pendingRegistrations (normalizeEmail e)
            { email := normalizeEmail e,
              verificationCode := generateVerificationCode d1,
              verificationExpire := now1 + 10 * 60 * 1000,
              createdAt := now1 }) } := by
    simp [checkEmailAndSendVerification, htrim, hno]
  have hstep2 : (resendVerification (checkEmailAndSendVerification
      st now1 d1 e).2 now2 d2 e).2 =
      { st with pendingRegistrations :=
          (mapSet (mapSet st.pendingRegistrations (normalizeEmail e)
            { email := normalizeEmail e,
              verificationCode := generateVerificationCode d1,
              verificationExpire := now1 + 10 * 60 * 1000,
              createdAt := now1 }) (normalizeEmail e)
            { email := normalizeEmail e,
              verificationCode := generateVerificationCode d2,
              verificationExpire := now2 + 10 * 60 * 1000,
              createdAt := now2 }) } := by
    rw [hstep1]
    simp [resendVerification, he, hno]
  have hget := mapGet_mapSet_self
    (mapSet st.pendingRegistrations (normalizeEmail e)
      { email := normalizeEmail e,
        verificationCode := generateVerificationCode d1,
        verificationExpire := now1 + 10 * 60 * 1000, createdAt := now1 })
    (normalizeEmail e)
    { email := normalizeEmail e,
      verificationCode := generateVerificationCode d2,
      verificationExpire := now2 + 10 * 60 * 1000, createdAt := now2 }
  refine ⟨?_, ?_, ?_⟩
  · rw [hstep2]
    exact hget
  · rw [hstep2]
    exact mapSet_keys_nodup _ _ _ (mapSet_keys_nodup _ _ _ hwf)
  · rw [hstep2]
    simp [verifyCode, hn, h0, hget, Ne.symm hne]

/-- Witness for C2: issue for `a@b.com` (code `100000`), re-issue (code
`100001`); the stored entry carries the second code and confirming with the
first fails with `CodeMismatch`. -/
theorem C2_witness :
    generateVerificationCode draw100000 ≠ generateVerificationCode draw100001 ∧
      mapGet (resendVerification (checkEmailAndSendVerification stEmpty 0
          draw100000 "a@b.com").2 3 draw100001 "a@b.com").2.pendingRegistrations
          (normalizeEmail "a@b.com") =
        some { email := normalizeEmail "a@b.com",
               verificationCode := generateVerificationCode draw100001,
               verificationExpire := 3 + 10 * 60 * 1000, createdAt := 3 } ∧
      (verifyCode (resendVerification (checkEmailAndSendVerification stEmpty 0
          draw100000 "a@b.com").2 3 draw100001 "a@b.com").2 4
          (normalizeEmail "a@b.com")
          (generateVerificationCode draw100000)).1 = .codeMismatch := by
  have h := C2_reissue_supersedes stEmpty 0 3 4 draw100000 draw100001
    "a@b.com" (by decide) (by decide) (by decide) (by decide) (by decide)
    (by decide)
  exact ⟨by decide, h.1, h.2.2⟩

/-- Claim C4: `resetPassword` succeeds exactly when some account holds this
very token unexpired; on success the found account gets the new password
with both reset fields cleared, and — tokens being held by at most one
account — any second redeem of the same token fails with
`InvalidOrExpiredToken`. -/
theorem C4_reset_single_use (st : State) (now : Nat) (t p : String)
    (ht : t ≠ "") (hp : p ≠ "")
    (huniq : ∀ v₁ v₂, v₁ ∈ st.users → v₂ ∈ st.users →
        v₁.resetPasswordToken = some t → v₂.resetPasswordToken = some t →
        v₁.id = v₂.id) :
    ((resetPassword st now t p).1 = .success ↔
        ∃ u, u ∈ st.users ∧ u.resetPasswordToken = some t ∧
          ∃ x, u.resetPasswordExpire = some x ∧ now < x) ∧
      ∀ u, findByResetToken st.users t now = some u →
        ({ u with
           password := p,
           resetPasswordToken := none,
           resetPasswordExpire := none } ∈
              (resetPassword st now t p).2.users ∧
          ∀ now2 p2, p2 ≠ "" →
            (resetPassword (resetPassword st now t p).2 now2 t p2).1 =
              .invalidOrExpired) := by
  cases hf : findByResetToken st.users t now with
  | none =>
    have hres : resetPassword st now t p = (.invalidOrExpired, st) := by
      simp [resetPassword, ht, hp, hf]
    refine ⟨?_, ?_⟩
    · rw [hres]
      refine iff_of_false (by simp) ?_
      rintro ⟨u, hmem, htok, x, hx, hlt⟩
      have hm : resetMatch t now u = true :=
        (resetMatch_eq_true t now u).mpr ⟨htok, x, hx, hlt⟩
      obtain ⟨w, hw⟩ := findByResetToken_isSome st.users t now u hmem hm
      rw [hf] at hw
      simp at hw
    · intro u hu
      simp at hu
  | some u0 =>
    obtain ⟨hmem0, hm0⟩ := findByResetToken_mem st.users t now u0 hf
    obtain ⟨htok0, x0, hx0, hlt0⟩ := (resetMatch_eq_true t now u0).mp hm0
    have hres : resetPassword st now t p =
        (.success, { st with users :=
          (saveUser st.users { u0 with
                               password := p,
                               resetPasswordToken := none,
                               resetPasswordExpire := none }) }) := by
      simp [resetPassword, ht, hp, hf]
    refine ⟨?_, ?_⟩
    · rw [hres]
      exact iff_of_true rfl ⟨u0, hmem0, htok0, x0, hx0, hlt0⟩
    · intro u hu
      obtain rfl : u0 = u := by injection hu
      refine ⟨?_, ?_⟩
      · rw [hres]
        unfold saveUser
        exact List.mem_map.mpr ⟨u0, hmem0, if_pos rfl⟩
      · intro now2 p2 hp2
        rw [hres]
        have hnone : findByResetToken
            (saveUser st.users { u0 with
                                 password := p,
                                 resetPasswordToken := none,
                                 resetPasswordExpire := none })
            t now2 = none := by
          apply findByResetToken_eq_none
          intro x hx
          unfold saveUser at hx
          obtain ⟨a, ha, rfl⟩ := List.mem_map.mp hx
          by_cases hid : a.id = ({ u0 with
                                   password := p,
                                   resetPasswordToken := none,
                                   resetPasswordExpire := none } : User).id
          · rw [if_pos hid]
            simp [resetMatch]
          · rw [if_neg hid]
            cases hres2 : resetMatch t now2 a with
            | false => rfl
            | true =>
              obtain ⟨htoka, _⟩ := (resetMatch_eq_true t now2 a).mp hres2
              exact absurd (huniq a u0 ha hmem0 htoka htok0) hid
        simp [resetPassword, hp2, ht, hnone]

/-- Witness for C4: `bob` holds `resettok` unexpired; redeeming succeeds
and updates his record, and redeeming the same token again fails. -/
theorem C4_witness :
    findByResetToken stBob.users "resettok" 0 = some bob ∧
      ({ bob with
         password := "npw",
         resetPasswordToken := none,
         resetPasswordExpire := none } ∈
            (resetPassword stBob 0 "resettok" "npw").2.users ∧
        (resetPassword (resetPassword stBob 0 "resettok" "npw").2
            9 "resettok" "npw2").1 = .invalidOrExpired) := by
  have h := (C4_reset_single_use stBob 0 "resettok" "npw" (by decide)
    (by decide) (by
      intro v₁ v₂ h₁ h₂ _ _
      simp only [stBob, List.mem_singleton] at h₁ h₂
      rw [h₁, h₂])).2 bob (by decide)
  exact ⟨by decide, h.1, h.2 9 "npw2" (by decide)⟩

end LaundryAuth
